import Mathlib

/-!
Verification of the DAG visualizer (`app.py`) against its specification.

The load / edit / save pipeline of `app.py` is shallowly embedded here:

* JSON values (the result of `json.load`) are the inductive `Json`;
  objects are association lists in insertion order with distinct keys,
  as produced by Python's `json` module.
* `deserialize` models the load path of `main` (lines 49-134): extraction
  of `unit_operations` / `streams`, collection of node ids, construction
  of the flow nodes (with the derived `node_type`) and flow edges, and
  the dropping of dangling edges with a warning.
* `serializeState` models the save path (lines 214-248) composed with a
  re-parse: building `updated_dag` as Python dicts keyed by the raw
  node / edge id values (`pyDictInsert`, where `1 == True` collide)
  and then dumping to JSON, which stringifies keys via `Json.dumpKey`
  and lets the reader collapse textual duplicates (`reparseDict`).
* `applyNodeEdit` models the node-edit form submit handler
  (lines 193-209).

A Python run that raises an uncaught exception produces no graph; such
runs are modelled by `none`.  Streamlit diagnostics (`st.warning`,
`st.error`) are modelled structurally by `Diag`.
-/

/-- A parsed JSON value, as returned by `json.load`.  Objects keep
Python-dict insertion order; `json.load` guarantees distinct keys. -/
inductive Json where
  | null
  | bool (b : Bool)
  | num (n : Int)
  | str (s : String)
  | arr (elems : List Json)
  | obj (fields : List (String × Json))

/-- Python truthiness of a JSON value (`if dag_data:`, `if node_id:`). -/
def Json.truthy : Json → Bool
  | .null => false
  | .bool b => b
  | .num n => n != 0
  | .str s => s != ""
  | .arr xs => !xs.isEmpty
  | .obj fs => !fs.isEmpty

/-- A JSON value that is hashable as a Python value (usable as a set
member or dict key).  Arrays (lists) and objects (dicts) are not. -/
def Json.isScalar : Json → Bool
  | .arr _ => false
  | .obj _ => false
  | _ => true

/-- Python `==` as used in `app.py`.  At every comparison site of the
source (`edge['target'] == node_id`, `source not in node_ids`,
`stream_type == 'core'`) at least one operand is a hashable scalar —
set members and dict keys must be hashable — so list/dict deep equality
never arises and those cases are `false` here.  Python's numeric tower
makes `True == 1` and `False == 0`. -/
def pyEq : Json → Json → Bool
  | .null, .null => true
  | .bool x, .bool y => x == y
  | .bool x, .num n => (if x then (1 : Int) else 0) == n
  | .num n, .bool x => n == (if x then (1 : Int) else 0)
  | .num x, .num y => x == y
  | .str x, .str y => x == y
  | _, _ => false

/-- First-match lookup in an object's field list (Python dict access;
keys are distinct after `json.load`). -/
def lookupKey : List (String × Json) → String → Option Json
  | [], _ => none
  | (k, v) :: rest, key => if k = key then some v else lookupKey rest key

/-- Python `d.get(key, default)`: crashes (`none`) when the receiver is
not a dict. -/
def Json.getD : Json → String → Json → Option Json
  | .obj fs, key, dflt => some ((lookupKey fs key).getD dflt)
  | _, _, _ => none

/-- Python `d[key]`: crashes (`none`) on a missing key or a non-dict. -/
def Json.get : Json → String → Option Json
  | .obj fs, key => lookupKey fs key
  | _, _ => none

/-- Python `d.values()`: crashes (`none`) on a non-dict. -/
def Json.valuesOf : Json → Option (List Json)
  | .obj fs => some (fs.map Prod.snd)
  | _ => none

/-- The string key under which `json.dumps` emits a Python dict entry
keyed by this value; `none` models the `TypeError` on unhashable keys
(which Python raises already at dict insertion). -/
def Json.dumpKey : Json → Option String
  | .str s => some s
  | .num n => some (toString n)
  | .bool b => some (if b then "true" else "false")
  | .null => some "null"
  | _ => none

/-- Insertion into a Python dict (assignment `d[k] = v`): an existing
key keeps its position and gets the new value, a new key is appended. -/
def insertKV : List (String × Json) → String → Json → List (String × Json)
  | [], k, v => [(k, v)]
  | (k1, v1) :: rest, k, v =>
      if k1 = k then (k, v) :: rest else (k1, v1) :: insertKV rest k v

/-- A surfaced Streamlit diagnostic.  `danglingEdge` models the
`st.warning` of line 120 (its message interpolates exactly the stream
id, source and target); `invalidParams` models the `st.error` of
line 206. -/
inductive Diag where
  | danglingEdge (streamId source target : Json)
  | invalidParams

/-- A `StreamlitFlowNode` as built at lines 98-106: the id, the fixed
keys of the `data` dict (lines 87-96), the position (always `(0, 0)` at
load, integers at save), and the derived `node_type`. -/
structure FlowNode where
  id : Json
  posX : Int
  posY : Int
  content : Json
  description : Json
  unit_operation_type : Json
  order : Json
  input_streams : Json
  output_streams : Json
  parameters : Json
  additional_info : Json
  node_type : String

/-- A `StreamlitFlowEdge` as built at lines 123-130. -/
structure FlowEdge where
  id : Json
  source : Json
  target : Json
  label : Json
  animated : Bool

/-- The outcome of a successful load: the flow state plus the collected
load-time diagnostics. -/
structure LoadResult where
  nodes : List FlowNode
  edges : List FlowEdge
  warnings : List Diag

/-- The node/edge state handed to serialization. -/
structure FlowState where
  nodes : List FlowNode
  edges : List FlowEdge

/-- Lines 59-63: collect the truthy `unit_operation_id` values into the
`node_ids` set (modelled as a list in insertion order; `set.add` of an
unhashable value raises, hence the `isScalar` guard). -/
def collectNodeIds : List Json → Option (List Json)
  | [] => some []
  | n :: rest =>
      (n.getD "unit_operation_id" (.str "")).bind fun nid =>
      (collectNodeIds rest).bind fun ids =>
      if nid.truthy then
        if nid.isScalar then some (nid :: ids) else none
      else
        some ids

/-- Lines 76 and 79: `any(edge[field] == nid for edge in
edges_data.values())`, with Python's short-circuit: a record missing
the field only raises if it is reached. -/
def anyFieldEq (edges : List Json) (field : String) (nid : Json) : Option Bool :=
  match edges with
  | [] => some false
  | e :: rest =>
      (e.get field).bind fun v =>
      if pyEq v nid then some true else anyFieldEq rest field nid

/-- Lines 73-80: derive the node type.  `node_type` starts as
`'default'`, becomes `'input'` when no edge targets the node, and is
then overwritten with `'output'` when no edge sources it. -/
def nodeTypeOf (edges : List Json) (nid : Json) : Option String :=
  (anyFieldEq edges "target" nid).bind fun hasIncoming =>
  (anyFieldEq edges "source" nid).bind fun hasOutgoing =>
  some (if !hasOutgoing then "output"
        else if !hasIncoming then "input" else "default")

/-- Lines 66-107: build the `StreamlitFlowNode` list.  Records whose
`unit_operation_id` is missing or falsy are skipped (line 70-71) with
no diagnostic; the remaining fields default as at lines 87-96. -/
def buildNodes (nodesVals edgesVals : List Json) : Option (List FlowNode) :=
  match nodesVals with
  | [] => some []
  | n :: rest =>
      (n.getD "unit_operation_id" (.str "")).bind fun nid =>
      (n.getD "name" (.str "")).bind fun nname =>
      if nid.truthy then
        (nodeTypeOf edgesVals nid).bind fun nt =>
        (n.getD "description" (.str "")).bind fun ndescr =>
        (n.getD "unit_operation_type" (.str "")).bind fun ntype =>
        (n.getD "order" .null).bind fun norder =>
        (n.getD "input_streams" (.arr [])).bind fun nins =>
        (n.getD "output_streams" (.arr [])).bind fun nouts =>
        (n.getD "parameters" (.obj [])).bind fun nparams =>
        (n.getD "additional_info" (.str "")).bind fun naddl =>
        (buildNodes rest edgesVals).bind fun ns =>
        some ({ id := nid, posX := 0, posY := 0, content := nname,
                description := ndescr, unit_operation_type := ntype,
                order := norder, input_streams := nins,
                output_streams := nouts, parameters := nparams,
                additional_info := naddl, node_type := nt } :: ns)
      else
        buildNodes rest edgesVals

/-- Lines 112-117, 123-130: extract one `StreamlitFlowEdge` from a
stream record; `animated` is `stream_type == 'core'` (line 117). -/
def edgeOfRecord (e : Json) : Option FlowEdge :=
  (e.getD "stream_id" (.str "")).bind fun sid =>
  (e.getD "source" (.str "")).bind fun src =>
  (e.getD "target" (.str "")).bind fun tgt =>
  (e.getD "name" (.str "")).bind fun nm =>
  (e.getD "stream_type" (.str "")).bind fun stype =>
  some { id := sid, source := src, target := tgt, label := nm,
         animated := pyEq stype (.str "core") }

/-- Line 119: membership of an endpoint in the `node_ids` set. -/
def jmem (ids : List Json) (x : Json) : Bool :=
  ids.any fun e => pyEq e x

/-- Lines 110-131: build the edge list, dropping each edge whose source
or target is not in `node_ids` with a warning naming it. -/
def buildEdges (edgesVals : List Json) (nodeIds : List Json) :
    Option (List FlowEdge × List Diag) :=
  match edgesVals with
  | [] => some ([], [])
  | e :: rest =>
      (edgeOfRecord e).bind fun fe =>
      (buildEdges rest nodeIds).bind fun ew =>
      if !jmem nodeIds fe.source || !jmem nodeIds fe.target then
        some (ew.1, .danglingEdge fe.id fe.source fe.target :: ew.2)
      else
        some (fe :: ew.1, ew.2)

/-- Lines 53-134: the whole load from a parsed file.  `edges_data` is
iterated unconditionally at line 111, so a non-dict `streams` value
always crashes the run; extracting its values up front is
observationally equivalent. -/
def buildLoad (dag : Json) : Option LoadResult :=
  (dag.getD "unit_operations" (.obj [])).bind fun nodesData =>
  (dag.getD "streams" (.obj [])).bind fun edgesData =>
  nodesData.valuesOf.bind fun nodesVals =>
  edgesData.valuesOf.bind fun edgesVals =>
  (collectNodeIds nodesVals).bind fun nodeIds =>
  (buildNodes nodesVals edgesVals).bind fun nodes =>
  (buildEdges edgesVals nodeIds).bind fun ew =>
  some { nodes := nodes, edges := ew.1, warnings := ew.2 }

/-- Lines 37-53: `load_dag` plus the `if dag_data:` guard.  `none` input
models bytes that are not well-formed JSON (`json.load` raised, so
`load_dag` returned `None`); a falsy parsed value is also not loaded. -/
def deserialize (input : Option Json) : Option LoadResult :=
  match input with
  | none => none
  | some dag => if dag.truthy then buildLoad dag else none

/-- Lines 224-238: the record written for one node into
`updated_dag["unit_operations"]`. -/
def nodeRecord (n : FlowNode) : Json :=
  .obj [("unit_operation_id", n.id),
        ("name", n.content),
        ("description", n.description),
        ("unit_operation_type", n.unit_operation_type),
        ("order", n.order),
        ("input_streams", n.input_streams),
        ("output_streams", n.output_streams),
        ("parameters", n.parameters),
        ("additional_info", n.additional_info),
        ("position", .obj [("x", .num n.posX), ("y", .num n.posY)])]

/-- Lines 242-248: the record written for one edge into
`updated_dag["streams"]`; `stream_type` is `"core"` when `animated`
and `"other"` otherwise. -/
def edgeRecord (e : FlowEdge) : Json :=
  .obj [("stream_id", e.id),
        ("source", e.source),
        ("target", e.target),
        ("name", e.label),
        ("stream_type", .str (if e.animated then "core" else "other"))]

/-- Assignment `d[k] = v` into a Python dict, keyed by the raw Python
value with Python `==` key equality: an existing equal key keeps its
original key object and position and receives the new value, a new key
is appended.  Since `1 == True`, int and bool keys collide already
here, before any JSON dumping. -/
def pyDictInsert (fs : List (Json × Json)) (k : Json) (v : Json) :
    List (Json × Json) :=
  match fs with
  | [] => [(k, v)]
  | (k1, v1) :: rest =>
      if pyEq k1 k then (k1, v) :: rest
      else (k1, v1) :: pyDictInsert rest k v

/-- The per-item dict-building loop of lines 221-248
(`updated_dag[...][item.id] = record`): the dict is keyed by the raw id
value; an unhashable id (list/dict) raises at insertion. -/
def buildDictRaw {α : Type} (idOf : α → Json) (recOf : α → Json)
    (acc : List (Json × Json)) : List α → Option (List (Json × Json))
  | [] => some acc
  | a :: rest =>
      if (idOf a).isScalar then
        buildDictRaw idOf recOf (pyDictInsert acc (idOf a) (recOf a)) rest
      else none

/-- `json.dumps` followed by the reader's parse, applied to a raw-keyed
dict: each key becomes its JSON string via `Json.dumpKey`; distinct raw
keys sharing a dump string (such as int `1` and str `"1"`) become
textual duplicates that the reader collapses — first position, last
value, i.e. `insertKV` over the dumped keys. -/
def reparseDict (acc : List (String × Json)) :
    List (Json × Json) → Option (List (String × Json))
  | [] => some acc
  | (k, v) :: rest =>
      k.dumpKey.bind fun ks => reparseDict (insertKV acc ks v) rest

/-- Fold the per-item records into a Python dict keyed by the raw item
id, then dump it to JSON and re-parse: the composition a saved file
goes through before it is read back. -/
def buildDict {α : Type} (idOf : α → Json) (recOf : α → Json)
    (items : List α) : Option (List (String × Json)) :=
  (buildDictRaw idOf recOf [] items).bind (reparseDict [])

/-- Lines 214-248 composed with a re-parse: serialize the current state
to the `updated_dag` JSON value. -/
def serializeState (s : FlowState) : Option Json :=
  (buildDict (·.id) nodeRecord s.nodes).bind fun uo =>
  (buildDict (·.id) edgeRecord s.edges).bind fun strm =>
  some (.obj [("unit_operations", .obj uo), ("streams", .obj strm)])

/-- Lines 199-200: `[s.strip() for s in text.split(',') if s.strip()]` —
the list comprehension normalizing a stream-list text field. -/
def splitStreams (text : String) : List String :=
  (text.splitOn ",").filterMap fun s =>
    if s.trim != "" then some s.trim else none

/-- The normalization as the claim words it: split on the delimiter,
trim each entry, drop entries that are empty after trimming.  Stated
separately from `splitStreams` (which transcribes the source) so the
two can be compared. -/
def specSplitStreams (text : String) : List String :=
  ((text.splitOn ",").map String.trim).filter fun s => s != ""

/-- The values submitted through the node-edit form (lines 179-191).
`parameters_text_res` is the outcome of `json.loads` on the
parameters text: `none` when the text does not parse. -/
structure EditForm where
  new_name : String
  new_description : String
  new_unit_type : String
  new_order : Int
  new_input_streams_str : String
  new_output_streams_str : String
  parameters_text_res : Option Json
  new_additional_info : String

/-- Lines 193-209: the form-submit handler.  All plain fields and the
normalized stream lists are written; the parameters text is parsed and
on failure the previously stored `parameters` value is kept and an
`st.error` diagnostic is emitted; `additional_info` is written after
the parameters block either way. -/
def applyNodeEdit (n : FlowNode) (f : EditForm) : FlowNode × List Diag :=
  let base := { n with
    content := .str f.new_name,
    description := .str f.new_description,
    unit_operation_type := .str f.new_unit_type,
    order := .num f.new_order,
    input_streams := .arr ((splitStreams f.new_input_streams_str).map Json.str),
    output_streams := .arr ((splitStreams f.new_output_streams_str).map Json.str) }
  match f.parameters_text_res with
  | some p =>
      ({ base with parameters := p,
                   additional_info := .str f.new_additional_info }, [])
  | none =>
      ({ base with parameters := n.parameters,
                   additional_info := .str f.new_additional_info },
       [.invalidParams])

/-- The four node roles named by the specification (§4.3). -/
inductive SpecRole where
  | SOURCE
  | SINK
  | SOURCE_AND_SINK
  | INTERIOR
deriving DecidableEq

/-- The classification as the spec words it (§4.3): SOURCE if no edge
targets the node, SINK if no edge sources it, both conditions together
SOURCE_AND_SINK, otherwise INTERIOR.  Stated separately from
`nodeTypeOf` (which transcribes the source) so the two can be
compared. -/
def specClassify (edges : List FlowEdge) (nid : Json) : SpecRole :=
  let noIncoming := edges.all fun e => !pyEq e.target nid
  let noOutgoing := edges.all fun e => !pyEq e.source nid
  if noIncoming && noOutgoing then .SOURCE_AND_SINK
  else if noIncoming then .SOURCE
  else if noOutgoing then .SINK
  else .INTERIOR

/-- The fields of a node that the round-trip property compares: the id,
every `data` field, and the position — everything except the derived
`node_type`. -/
structure NodeCore where
  id : Json
  posX : Int
  posY : Int
  content : Json
  description : Json
  unit_operation_type : Json
  order : Json
  input_streams : Json
  output_streams : Json
  parameters : Json
  additional_info : Json

/-- Project a flow node to its round-trip-compared fields. -/
def FlowNode.core (n : FlowNode) : NodeCore :=
  { id := n.id, posX := n.posX, posY := n.posY, content := n.content,
    description := n.description,
    unit_operation_type := n.unit_operation_type, order := n.order,
    input_streams := n.input_streams, output_streams := n.output_streams,
    parameters := n.parameters, additional_info := n.additional_info }

/-- Option-valued map over a list, failing when any element fails; used
to name the list of edge records a load extracts. -/
def mapO {α β : Type} (f : α → Option β) : List α → Option (List β)
  | [] => some []
  | a :: l => (f a).bind fun b => (mapO f l).bind fun bs => some (b :: bs)

/-- A node whose parameters text will fail to parse, for the C4
witness. -/
def c4node : FlowNode :=
  { id := .str "N", posX := 0, posY := 0, content := .str "old",
    description := .str "", unit_operation_type := .str "",
    order := .null, input_streams := .arr [], output_streams := .arr [],
    parameters := .obj [("k", .num 1)], additional_info := .str "",
    node_type := "default" }

/-- A form submission whose parameters text does not parse, for the C4
witness. -/
def c4form : EditForm :=
  { new_name := "new", new_description := "d", new_unit_type := "t",
    new_order := 3, new_input_streams_str := "a, b",
    new_output_streams_str := "", parameters_text_res := none,
    new_additional_info := "info" }

/-- The edge record `A -> B` used by the C2 witness. -/
def c2edges : List Json :=
  [Json.obj [("source", Json.str "A"), ("target", Json.str "B")]]

/-- A legacy-shaped file: top-level `nodes`/`edges` arrays. -/
def c3legacyFile : Json :=
  .obj [("nodes", .arr [Json.obj [("unit_operation_id", .str "A"),
                                  ("name", .str "N1")]]),
        ("edges", .arr [])]

/-- The same single-node content in the primary
`unit_operations`/`streams` shape. -/
def c3primaryFile : Json :=
  .obj [("unit_operations",
          .obj [("A", Json.obj [("unit_operation_id", .str "A"),
                                ("name", .str "N1")])]),
        ("streams", .obj [])]

/-- A truthy parsed file with neither `unit_operations` nor `streams`,
for the C3 witness. -/
def c3wfields : List (String × Json) := [("x", Json.num 1)]

/-- A file whose two node records share `unit_operation_id` `"X"`. -/
def c5file : Json :=
  .obj [("unit_operations", .obj [
          ("a", .obj [("unit_operation_id", .str "X"), ("name", .str "1")]),
          ("b", .obj [("unit_operation_id", .str "X"), ("name", .str "2")])]),
        ("streams", .obj [])]

/-- A well-formed single-node file, for the C5 witness. -/
def c5wfile : Json :=
  .obj [("unit_operations",
          .obj [("A", .obj [("unit_operation_id", .str "A")])]),
        ("streams", .obj [])]

/-- The load result of `c5wfile`. -/
def c5wres : LoadResult :=
  { nodes := [{ id := .str "A", posX := 0, posY := 0, content := .str "",
                description := .str "", unit_operation_type := .str "",
                order := .null, input_streams := .arr [],
                output_streams := .arr [], parameters := .obj [],
                additional_info := .str "", node_type := "output" }],
    edges := [], warnings := [] }

/-- A file with nodes `A`, `B`, a resolvable stream `e1 : A -> B` and a
dangling stream `e2 : A -> X`. -/
def c6file : Json :=
  .obj [("unit_operations", .obj [
          ("A", .obj [("unit_operation_id", .str "A")]),
          ("B", .obj [("unit_operation_id", .str "B")])]),
        ("streams", .obj [
          ("e1", .obj [("stream_id", .str "e1"), ("source", .str "A"),
                       ("target", .str "B"), ("name", .str "s1"),
                       ("stream_type", .str "core")]),
          ("e2", .obj [("stream_id", .str "e2"), ("source", .str "A"),
                       ("target", .str "X")])])]

/-- The stream records of `c6file` in order. -/
def c6vals : List Json :=
  [.obj [("stream_id", .str "e1"), ("source", .str "A"),
         ("target", .str "B"), ("name", .str "s1"),
         ("stream_type", .str "core")],
   .obj [("stream_id", .str "e2"), ("source", .str "A"),
         ("target", .str "X")]]

/-- The node ids of `c6file`. -/
def c6ids : List Json := [.str "A", .str "B"]

/-- The flow edges extracted from the stream records of `c6file`,
before the dangling check. -/
def c6alles : List FlowEdge :=
  [{ id := .str "e1", source := .str "A", target := .str "B",
     label := .str "s1", animated := true },
   { id := .str "e2", source := .str "A", target := .str "X",
     label := .str "", animated := false }]

/-- The load result of `c6file`. -/
def c6res : LoadResult :=
  { nodes := [{ id := .str "A", posX := 0, posY := 0, content := .str "",
                description := .str "", unit_operation_type := .str "",
                order := .null, input_streams := .arr [],
                output_streams := .arr [], parameters := .obj [],
                additional_info := .str "", node_type := "input" },
              { id := .str "B", posX := 0, posY := 0, content := .str "",
                description := .str "", unit_operation_type := .str "",
                order := .null, input_streams := .arr [],
                output_streams := .arr [], parameters := .obj [],
                additional_info := .str "", node_type := "output" }],
    edges := [{ id := .str "e1", source := .str "A", target := .str "B",
                label := .str "s1", animated := true }],
    warnings := [.danglingEdge (.str "e2") (.str "A") (.str "X")] }

/-- A file whose single node record has no `unit_operation_id` at
all. -/
def c7file : Json :=
  .obj [("unit_operations", .obj [("a", .obj [("name", .str "X")])]),
        ("streams", .obj [])]

/-- A stream record whose `stream_type` is neither `"core"` nor
`"other"`, for the C10 witness. -/
def c10rec : Json :=
  .obj [("stream_type", .str "energy")]

/-- The flow edge extracted from `c10rec`: not animated. -/
def c10fe : FlowEdge :=
  { id := .str "", source := .str "", target := .str "",
    label := .str "", animated := false }

/-- A file whose two node records share an id, for the C1
counterexample: serialization keys records by id, so one is lost. -/
def c1file : Json :=
  .obj [("unit_operations", .obj [
          ("a", .obj [("unit_operation_id", .str "X"), ("name", .str "1")]),
          ("b", .obj [("unit_operation_id", .str "X"), ("name", .str "2")])]),
        ("streams", .obj [])]

/-- A well-formed two-node one-edge file, for the C1 witness. -/
def c1wfile : Json :=
  .obj [("unit_operations", .obj [
          ("A", .obj [("unit_operation_id", .str "A")]),
          ("B", .obj [("unit_operation_id", .str "B")])]),
        ("streams", .obj [
          ("e1", .obj [("stream_id", .str "e1"), ("source", .str "A"),
                       ("target", .str "B"), ("name", .str "s1"),
                       ("stream_type", .str "core")])])]

/-- The load result of `c1wfile`. -/
def c1wres : LoadResult :=
  { nodes := [{ id := .str "A", posX := 0, posY := 0, content := .str "",
                description := .str "", unit_operation_type := .str "",
                order := .null, input_streams := .arr [],
                output_streams := .arr [], parameters := .obj [],
                additional_info := .str "", node_type := "input" },
              { id := .str "B", posX := 0, posY := 0, content := .str "",
                description := .str "", unit_operation_type := .str "",
                order := .null, input_streams := .arr [],
                output_streams := .arr [], parameters := .obj [],
                additional_info := .str "", node_type := "output" }],
    edges := [{ id := .str "e1", source := .str "A", target := .str "B",
                label := .str "s1", animated := true }],
    warnings := [] }

/-- Comprehension versus map-then-filter, for any string list. -/
theorem filterMap_trim (l : List String) :
    (l.filterMap fun s => if s.trim != "" then some s.trim else none)
      = (l.map String.trim).filter fun s => s != "" := by
  induction l with
  | nil => rfl
  | cons a l ih =>
    by_cases h : a.trim = ""
    · simp only [List.filterMap_cons, List.map_cons, List.filter_cons]
      simp only [h]
      simpa using ih
    · simp only [List.filterMap_cons, List.map_cons, List.filter_cons]
      have hb : (a.trim != "") = true := by simp [h]
      rw [hb]
      simp only [if_true]
      rw [ih]

/-- The source's comprehension and the claim's split-trim-drop
normalization agree. -/
theorem splitStreams_eq_spec (text : String) :
    splitStreams text = specSplitStreams text :=
  filterMap_trim (text.splitOn ",")

/-- When every record has the field, `anyFieldEq` is `List.any`. -/
theorem anyFieldEq_eq_any (es : List Json) (field : String) (v : Json)
    (h : ∀ e ∈ es, (Json.get e field).isSome) :
    anyFieldEq es field v
      = some (es.any fun e => (e.get field).any fun w => pyEq w v) := by
  induction es with
  | nil => rfl
  | cons e rest ih =>
    obtain ⟨w, hw⟩ := Option.isSome_iff_exists.mp (h e (List.mem_cons_self e rest))
    have hrest := ih fun x hx => h x (List.mem_cons_of_mem e hx)
    by_cases hp : pyEq w v = true <;>
      simp [anyFieldEq, hw, hp, hrest, Option.any]

/-- C8: byte input that is not well-formed JSON makes `json.load` raise,
`load_dag` return `None`, and the `if dag_data:` guard skip the whole
load: no graph (partial or otherwise) is produced. -/
theorem c8_malformed_input_fails_load : deserialize none = none := rfl

/-- C9: for every node edit submission, the stored input-stream and
output-stream lists are exactly the claim's normalization of the
submitted text: split on the comma delimiter, each entry trimmed, and
entries empty after trimming dropped. -/
theorem c9_stream_list_normalization (n : FlowNode) (f : EditForm) :
    (applyNodeEdit n f).1.input_streams
      = .arr ((specSplitStreams f.new_input_streams_str).map Json.str) ∧
    (applyNodeEdit n f).1.output_streams
      = .arr ((specSplitStreams f.new_output_streams_str).map Json.str) := by
  cases hp : f.parameters_text_res <;>
    simp [applyNodeEdit, hp, splitStreams_eq_spec]

/-- C4: an edit whose parameters text does not parse still commits every
other submitted field (name, description, type, order, stream lists,
additional info), keeps `parameters` at its previously stored value,
and emits a diagnostic; the transaction is not aborted. -/
theorem c4_lenient_parameter_edit (n : FlowNode) (f : EditForm)
    (h : f.parameters_text_res = none) :
    (applyNodeEdit n f).1.content = .str f.new_name ∧
    (applyNodeEdit n f).1.description = .str f.new_description ∧
    (applyNodeEdit n f).1.unit_operation_type = .str f.new_unit_type ∧
    (applyNodeEdit n f).1.order = .num f.new_order ∧
    (applyNodeEdit n f).1.input_streams
      = .arr ((splitStreams f.new_input_streams_str).map Json.str) ∧
    (applyNodeEdit n f).1.output_streams
      = .arr ((splitStreams f.new_output_streams_str).map Json.str) ∧
    (applyNodeEdit n f).1.additional_info = .str f.new_additional_info ∧
    (applyNodeEdit n f).1.parameters = n.parameters ∧
    (applyNodeEdit n f).2 = [Diag.invalidParams] := by
  simp [applyNodeEdit, h]

/-- C4 witness: the lenient-edit theorem applied at a concrete node and
form whose parameters text does not parse. -/
theorem c4_lenient_parameter_edit_witness :
    c4form.parameters_text_res = none ∧
    ((applyNodeEdit c4node c4form).1.content = .str c4form.new_name ∧
     (applyNodeEdit c4node c4form).1.description = .str c4form.new_description ∧
     (applyNodeEdit c4node c4form).1.unit_operation_type = .str c4form.new_unit_type ∧
     (applyNodeEdit c4node c4form).1.order = .num c4form.new_order ∧
     (applyNodeEdit c4node c4form).1.input_streams
       = .arr ((splitStreams c4form.new_input_streams_str).map Json.str) ∧
     (applyNodeEdit c4node c4form).1.output_streams
       = .arr ((splitStreams c4form.new_output_streams_str).map Json.str) ∧
     (applyNodeEdit c4node c4form).1.additional_info = .str c4form.new_additional_info ∧
     (applyNodeEdit c4node c4form).1.parameters = c4node.parameters ∧
     (applyNodeEdit c4node c4form).2 = [Diag.invalidParams]) :=
  ⟨rfl, c4_lenient_parameter_edit c4node c4form rfl⟩

/-- C2 counterexample: with the single edge `A -> B`, the isolated node
`C` (no incident edges) and the pure sink `B` both classify as
`"output"`; the spec-side classification distinguishes them
(SOURCE_AND_SINK versus SINK), so the code has no SOURCE_AND_SINK
class: the claim fails at an isolated node. -/
theorem c2_counterexample :
    nodeTypeOf [Json.obj [("source", Json.str "A"), ("target", Json.str "B")]]
        (Json.str "C")
      = nodeTypeOf [Json.obj [("source", Json.str "A"), ("target", Json.str "B")]]
        (Json.str "B") ∧
    nodeTypeOf [Json.obj [("source", Json.str "A"), ("target", Json.str "B")]]
        (Json.str "C") = some "output" ∧
    specClassify [{ id := Json.str "e", source := Json.str "A",
                    target := Json.str "B", label := Json.str "",
                    animated := false }] (Json.str "C")
      = SpecRole.SOURCE_AND_SINK ∧
    specClassify [{ id := Json.str "e", source := Json.str "A",
                    target := Json.str "B", label := Json.str "",
                    animated := false }] (Json.str "B")
      = SpecRole.SINK ∧
    SpecRole.SOURCE_AND_SINK ≠ SpecRole.SINK :=
  ⟨rfl, rfl, rfl, rfl, by decide⟩

/-- C2 amended: on records that have both endpoint fields, the
classification returns `"output"` (SINK) whenever no edge sources the
node — in particular an isolated node is `"output"`, there is no
separate SOURCE_AND_SINK class — `"input"` (SOURCE) when some edge
sources the node but none targets it, and `"default"` (INTERIOR)
otherwise. -/
theorem c2_classification_amended (es : List Json) (nid : Json)
    (hs : ∀ e ∈ es, (Json.get e "source").isSome)
    (ht : ∀ e ∈ es, (Json.get e "target").isSome) :
    nodeTypeOf es nid = some (
      if es.any (fun e => (e.get "source").any fun w => pyEq w nid) then
        (if es.any (fun e => (e.get "target").any fun w => pyEq w nid) then
          "default"
        else "input")
      else "output") := by
  unfold nodeTypeOf
  rw [anyFieldEq_eq_any es "target" nid ht, anyFieldEq_eq_any es "source" nid hs]
  by_cases h1 : (es.any fun e => (e.get "target").any fun w => pyEq w nid) = true <;>
  by_cases h2 : (es.any fun e => (e.get "source").any fun w => pyEq w nid) = true <;>
    simp [h1, h2]

/-- C2 witness: the amended classification theorem applied to the edge
set `A -> B` at node `A`. -/
theorem c2_classification_amended_witness :
    (∀ e ∈ c2edges, (Json.get e "source").isSome) ∧
    (∀ e ∈ c2edges, (Json.get e "target").isSome) ∧
    nodeTypeOf c2edges (Json.str "A") = some (
      if c2edges.any (fun e => (e.get "source").any fun w => pyEq w (Json.str "A")) then
        (if c2edges.any (fun e => (e.get "target").any fun w => pyEq w (Json.str "A")) then
          "default"
        else "input")
      else "output") :=
  ⟨by decide, by decide,
   c2_classification_amended c2edges (Json.str "A") (by decide) (by decide)⟩

/-- Every node a load keeps has a truthy id and position `(0, 0)`. -/
theorem buildNodes_shape (vals es : List Json) (ns : List FlowNode)
    (h : buildNodes vals es = some ns) :
    ∀ n ∈ ns, n.id.truthy = true ∧ n.posX = 0 ∧ n.posY = 0 := by
  induction vals generalizing ns with
  | nil =>
    simp only [buildNodes, Option.some.injEq] at h
    subst h
    intro n hn
    cases hn
  | cons v rest ih =>
    simp only [buildNodes, Option.bind_eq_some] at h
    obtain ⟨nid, hnid, h⟩ := h
    obtain ⟨nm, hnm, h⟩ := h
    split at h
    · simp only [Option.bind_eq_some, Option.some.injEq] at h
      obtain ⟨nt, hnt, d1, h1, d2, h2, d3, h3, d4, h4, d5, h5, d6, h6, d7,
        h7, ns2, hns2, hcons⟩ := h
      subst hcons
      intro n hn
      rcases List.mem_cons.mp hn with hh | ht
      · subst hh
        refine ⟨by assumption, rfl, rfl⟩
      · exact (ih ns2 hns2) n ht
    · exact ih ns h

/-- Every collected node id is a hashable scalar (the `set.add` of an
unhashable value would have crashed the load). -/
theorem collectNodeIds_scalar (vals : List Json) (ids : List Json)
    (h : collectNodeIds vals = some ids) :
    ∀ x ∈ ids, x.isScalar = true := by
  induction vals generalizing ids with
  | nil =>
    simp only [collectNodeIds, Option.some.injEq] at h
    subst h
    intro x hx
    cases hx
  | cons v rest ih =>
    simp only [collectNodeIds, Option.bind_eq_some] at h
    obtain ⟨nid, hnid, h⟩ := h
    obtain ⟨ids2, hids2, h⟩ := h
    split at h
    · split at h
      · simp only [Option.some.injEq] at h
        subst h
        intro x hx
        rcases List.mem_cons.mp hx with hh | ht
        · subst hh; assumption
        · exact ih ids2 hids2 x ht
      · cases h
    · simp only [Option.some.injEq] at h
      subst h
      exact ih _ hids2

/-- The collected id set is exactly the ids of the kept nodes, in
order: the two passes over the node records agree. -/
theorem buildNodes_ids (vals es : List Json) (ids : List Json)
    (ns : List FlowNode)
    (hc : collectNodeIds vals = some ids)
    (hb : buildNodes vals es = some ns) :
    ids = ns.map fun n => n.id := by
  induction vals generalizing ids ns with
  | nil =>
    simp only [collectNodeIds, Option.some.injEq] at hc
    simp only [buildNodes, Option.some.injEq] at hb
    subst hc; subst hb; rfl
  | cons v rest ih =>
    simp only [collectNodeIds, Option.bind_eq_some] at hc
    obtain ⟨nid, hnid, hc⟩ := hc
    obtain ⟨ids2, hids2, hc⟩ := hc
    simp only [buildNodes, Option.bind_eq_some] at hb
    obtain ⟨nid2, hnid2, hb⟩ := hb
    obtain ⟨nm, hnm, hb⟩ := hb
    rw [hnid] at hnid2
    cases hnid2
    split at hc
    · split at hc
      · simp only [Option.some.injEq] at hc
        subst hc
        rw [if_pos (by assumption)] at hb
        simp only [Option.bind_eq_some, Option.some.injEq] at hb
        obtain ⟨nt, hnt, d1, h1, d2, h2, d3, h3, d4, h4, d5, h5, d6, h6, d7,
          h7, ns2, hns2, hcons⟩ := hb
        subst hcons
        simp only [List.map_cons]
        rw [ih ids2 ns2 hids2 hns2]
      · cases hc
    · simp only [Option.some.injEq] at hc
      subst hc
      rw [if_neg (by assumption)] at hb
      exact ih _ ns hids2 hb

/-- The edge phase keeps exactly the extracted edges whose endpoints
are both known, and warns — naming the edge — about exactly the
others. -/
theorem buildEdges_spec (vals ids : List Json) (allEs : List FlowEdge)
    (h : mapO edgeOfRecord vals = some allEs) :
    buildEdges vals ids = some
      (allEs.filter fun e => jmem ids e.source && jmem ids e.target,
       (allEs.filter fun e => !(jmem ids e.source && jmem ids e.target)).map
         fun e => Diag.danglingEdge e.id e.source e.target) := by
  induction vals generalizing allEs with
  | nil =>
    simp only [mapO, Option.some.injEq] at h
    subst h
    rfl
  | cons v rest ih =>
    simp only [mapO, Option.bind_eq_some, Option.some.injEq] at h
    obtain ⟨fe, hfe, es2, hes2, hcons⟩ := h
    subst hcons
    by_cases hmem : (jmem ids fe.source && jmem ids fe.target) = true
    · have h12 : jmem ids fe.source = true ∧ jmem ids fe.target = true := by
        simpa using hmem
      have hcond : (!jmem ids fe.source || !jmem ids fe.target) = false := by
        simp [h12.1, h12.2]
      simp only [buildEdges, hfe, Option.bind_eq_some]
      rw [ih es2 hes2]
      simp only [List.filter_cons, hmem, hcond]
      simp
      exact h12
    · have hmem2 : (jmem ids fe.source && jmem ids fe.target) = false := by
        simpa using hmem
      have h12 : jmem ids fe.source = false ∨ jmem ids fe.target = false := by
        cases hs : jmem ids fe.source
        · exact Or.inl rfl
        · cases ht2 : jmem ids fe.target
          · exact Or.inr rfl
          · rw [hs, ht2] at hmem2
            cases hmem2
      have hcond : (!jmem ids fe.source || !jmem ids fe.target) = true := by
        rcases h12 with h1 | h1 <;> simp [h1]
      simp only [buildEdges, hfe, Option.bind_eq_some]
      rw [ih es2 hes2]
      simp only [List.filter_cons, hmem2, hcond]
      simp
      intro hs
      rcases h12 with h1 | h1
      · rw [h1] at hs
        cases hs
      · exact h1

/-- A successful load decomposes into its phases: values extraction,
id collection, node building and edge building. -/
theorem deserialize_parts (dag : Json) (r : LoadResult)
    (h : deserialize (some dag) = some r) :
    ∃ nodesVals edgesVals ids,
      ((dag.getD "unit_operations" (.obj [])).bind Json.valuesOf)
        = some nodesVals ∧
      ((dag.getD "streams" (.obj [])).bind Json.valuesOf)
        = some edgesVals ∧
      collectNodeIds nodesVals = some ids ∧
      buildNodes nodesVals edgesVals = some r.nodes ∧
      buildEdges edgesVals ids = some (r.edges, r.warnings) := by
  have h2 : (if dag.truthy = true then buildLoad dag else none) = some r := h
  clear h
  by_cases htr : dag.truthy = true
  swap
  · rw [if_neg htr] at h2
    cases h2
  · rw [if_pos htr] at h2
    unfold buildLoad at h2
    simp only [Option.bind_eq_some, Option.some.injEq] at h2
    obtain ⟨nd, hnd, h2⟩ := h2
    obtain ⟨ed, hed, h2⟩ := h2
    obtain ⟨nv, hnv, h2⟩ := h2
    obtain ⟨ev, hev, h2⟩ := h2
    obtain ⟨ids, hids, h2⟩ := h2
    obtain ⟨ns, hns, h2⟩ := h2
    obtain ⟨ew, hew, hfin⟩ := h2
    subst hfin
    refine ⟨nv, ev, ids, ?_, ?_, hids, hns, hew⟩
    · rw [hnd]
      exact hnv
    · rw [hed]
      exact hev

/-- Every load-time warning is a dangling-edge warning: no other kind
of record drop produces a diagnostic. -/
theorem buildEdges_warnings (vals ids : List Json) (es : List FlowEdge)
    (ws : List Diag) (h : buildEdges vals ids = some (es, ws)) :
    ∀ w ∈ ws, ∃ sid src tgt, w = Diag.danglingEdge sid src tgt := by
  induction vals generalizing es ws with
  | nil =>
    simp only [buildEdges, Option.some.injEq, Prod.mk.injEq] at h
    obtain ⟨h1, h2⟩ := h
    subst h2
    intro w hw
    cases hw
  | cons v rest ih =>
    simp only [buildEdges, Option.bind_eq_some] at h
    obtain ⟨fe, hfe, h⟩ := h
    obtain ⟨ew, hew, h⟩ := h
    split at h
    · simp only [Option.some.injEq, Prod.mk.injEq] at h
      obtain ⟨h1, h2⟩ := h
      subst h2
      intro w hw
      rcases List.mem_cons.mp hw with hh | ht
      · exact ⟨fe.id, fe.source, fe.target, hh⟩
      · exact ih ew.1 ew.2 hew w ht
    · simp only [Option.some.injEq, Prod.mk.injEq] at h
      obtain ⟨h1, h2⟩ := h
      subst h2
      intro w hw
      exact ih ew.1 ew.2 hew w hw

/-- C3 counterexample: a legacy-shaped file (top-level `nodes`/`edges`
arrays) deserializes to a graph with zero nodes, while the same content
in the primary `unit_operations`/`streams` shape yields one node: the
legacy shape is not accepted as the claim states. -/
theorem c3_counterexample :
    ((deserialize (some c3legacyFile)).map fun r => r.nodes.length) = some 0 ∧
    ((deserialize (some c3primaryFile)).map fun r => r.nodes.length) = some 1 :=
  ⟨rfl, rfl⟩

/-- C3 amended: deserialization reads only the `unit_operations` and
`streams` collections; a truthy parsed file with neither key — the
legacy `nodes`/`edges` shape in particular — is accepted but yields the
empty graph with no diagnostics, not the corresponding graph. -/
theorem c3_legacy_shape_amended (fs : List (String × Json))
    (h1 : lookupKey fs "unit_operations" = none)
    (h2 : lookupKey fs "streams" = none)
    (h3 : fs ≠ []) :
    deserialize (some (.obj fs))
      = some { nodes := [], edges := [], warnings := [] } := by
  have htr : (Json.obj fs).truthy = true := by
    cases fs with
    | nil => exact absurd rfl h3
    | cons a l => rfl
  have hstep : deserialize (some (.obj fs))
      = (if (Json.obj fs).truthy = true then buildLoad (.obj fs) else none) :=
    rfl
  rw [hstep, if_pos htr]
  unfold buildLoad
  simp [Json.getD, h1, h2, Json.valuesOf, collectNodeIds, buildNodes,
        buildEdges]

/-- C3 witness: the amended theorem applied to a concrete truthy file
with neither collection key. -/
theorem c3_legacy_shape_amended_witness :
    lookupKey c3wfields "unit_operations" = none ∧
    lookupKey c3wfields "streams" = none ∧
    c3wfields ≠ [] ∧
    deserialize (some (.obj c3wfields))
      = some { nodes := [], edges := [], warnings := [] } :=
  ⟨rfl, rfl, by simp [c3wfields],
   c3_legacy_shape_amended c3wfields rfl rfl (by simp [c3wfields])⟩

/-- C5 counterexample: loading a file whose two node records share
`unit_operation_id` `"X"` produces a graph with two distinct nodes both
carrying id `"X"` — the duplicate insertion is not rejected. -/
theorem c5_counterexample :
    ((deserialize (some c5file)).map fun r => r.nodes.map fun n => n.id)
      = some [.str "X", .str "X"] ∧
    ((deserialize (some c5file)).map fun r => r.nodes.map fun n => n.content)
      = some [.str "1", .str "2"] :=
  ⟨rfl, rfl⟩

/-- C5 amended: every node of a loaded graph has a non-empty (truthy)
id — records with a missing or falsy id are skipped — but uniqueness is
not enforced: duplicate ids survive loading (see the
counterexample). -/
theorem c5_nonempty_ids_amended (input : Option Json) (r : LoadResult)
    (h : deserialize input = some r) :
    ∀ n ∈ r.nodes, n.id.truthy = true := by
  match input with
  | none => cases h
  | some dag =>
    obtain ⟨nv, ev, ids, h1, h2, h3, h4, h5⟩ := deserialize_parts dag r h
    intro n hn
    exact (buildNodes_shape nv ev r.nodes h4 n hn).1

/-- C5 witness: the amended theorem applied to a concrete one-node
load. -/
theorem c5_nonempty_ids_amended_witness :
    deserialize (some c5wfile) = some c5wres ∧
    ∀ n ∈ c5wres.nodes, n.id.truthy = true :=
  ⟨rfl, c5_nonempty_ids_amended (some c5wfile) c5wres rfl⟩

/-- C6: for every load, the kept edges are exactly the extracted edges
whose source and target both resolve to collected node ids, and the
warnings are exactly one dangling-edge diagnostic — naming the edge's
stream id, source and target — per dropped edge, in order. -/
theorem c6_dangling_edges_dropped (dag : Json) (r : LoadResult)
    (h : deserialize (some dag) = some r)
    (vals : List Json)
    (hv : (dag.getD "streams" (.obj [])).bind Json.valuesOf = some vals)
    (ids : List Json)
    (hi : ((dag.getD "unit_operations" (.obj [])).bind Json.valuesOf).bind
            collectNodeIds = some ids)
    (allEs : List FlowEdge)
    (he : mapO edgeOfRecord vals = some allEs) :
    r.edges = allEs.filter (fun e => jmem ids e.source && jmem ids e.target) ∧
    r.warnings
      = (allEs.filter fun e => !(jmem ids e.source && jmem ids e.target)).map
          fun e => Diag.danglingEdge e.id e.source e.target := by
  obtain ⟨nv, ev, ids2, h1, h2, h3, h4, h5⟩ := deserialize_parts dag r h
  rw [h2] at hv
  cases hv
  rw [h1] at hi
  simp only [Option.some_bind] at hi
  rw [h3] at hi
  cases hi
  have hsp := buildEdges_spec vals ids allEs he
  rw [h5] at hsp
  simp only [Option.some.injEq, Prod.mk.injEq] at hsp
  exact ⟨hsp.1, hsp.2⟩

/-- C6 witness: the dangling-edge theorem applied to a concrete file
with one resolvable and one dangling stream. -/
theorem c6_dangling_edges_dropped_witness :
    deserialize (some c6file) = some c6res ∧
    (c6file.getD "streams" (.obj [])).bind Json.valuesOf = some c6vals ∧
    ((c6file.getD "unit_operations" (.obj [])).bind Json.valuesOf).bind
      collectNodeIds = some c6ids ∧
    mapO edgeOfRecord c6vals = some c6alles ∧
    (c6res.edges
        = c6alles.filter (fun e => jmem c6ids e.source && jmem c6ids e.target) ∧
     c6res.warnings
        = (c6alles.filter fun e =>
            !(jmem c6ids e.source && jmem c6ids e.target)).map
            fun e => Diag.danglingEdge e.id e.source e.target) :=
  ⟨rfl, rfl, rfl, rfl,
   c6_dangling_edges_dropped c6file c6res rfl c6vals rfl c6ids rfl c6alles rfl⟩

/-- C7 counterexample: a file whose single node record has no
`unit_operation_id` loads to the empty graph with an empty diagnostics
list — the record is dropped silently, contradicting the claim that no
record is ever dropped without a diagnostic. -/
theorem c7_counterexample :
    ((c7file.getD "unit_operations" (.obj [])).bind Json.valuesOf).map
        List.length = some 1 ∧
    deserialize (some c7file)
      = some { nodes := [], edges := [], warnings := [] } :=
  ⟨rfl, rfl⟩

/-- C7 amended: dropped dangling edges are the only record drops that
emit a diagnostic — every load-time diagnostic is a dangling-edge
warning — so node records with a missing or empty id are dropped
silently. -/
theorem c7_drops_amended (input : Option Json) (r : LoadResult)
    (h : deserialize input = some r) :
    ∀ w ∈ r.warnings, ∃ sid src tgt, w = Diag.danglingEdge sid src tgt := by
  match input with
  | none => cases h
  | some dag =>
    obtain ⟨nv, ev, ids, h1, h2, h3, h4, h5⟩ := deserialize_parts dag r h
    exact buildEdges_warnings ev ids r.edges r.warnings h5

/-- C7 witness: the amended theorem applied to a concrete load with one
dangling-edge warning. -/
theorem c7_drops_amended_witness :
    deserialize (some c6file) = some c6res ∧
    ∀ w ∈ c6res.warnings, ∃ sid src tgt, w = Diag.danglingEdge sid src tgt :=
  ⟨rfl, c7_drops_amended (some c6file) c6res rfl⟩

/-- Equality against a string under Python `==` is plain structural
equality. -/
theorem pyEq_str_iff (w : Json) (s : String) :
    pyEq w (.str s) = true ↔ w = .str s := by
  cases w <;> simp [pyEq]

/-- C10: every serialized edge record carries `stream_type` exactly
`"core"` when the edge's animated flag is set and exactly `"other"`
otherwise (so serialized values are always one of the two), and at load
time the animated flag is set if and only if the record's original
`stream_type` was exactly `"core"` — hence any other input value is
rewritten to `"other"` on save. -/
theorem c10_stream_type_core_other :
    (∀ e : FlowEdge,
        (edgeRecord e).get "stream_type"
          = some (.str (if e.animated then "core" else "other")) ∧
        ((edgeRecord e).get "stream_type" = some (.str "core")
          ↔ e.animated = true)) ∧
    (∀ rec fe, edgeOfRecord rec = some fe →
        (fe.animated = true
          ↔ rec.getD "stream_type" (.str "") = some (.str "core"))) := by
  constructor
  · intro e
    constructor
    · simp [edgeRecord, Json.get, lookupKey]
    · cases ha : e.animated <;> simp [edgeRecord, Json.get, lookupKey, ha]
  · intro rec fe h
    unfold edgeOfRecord at h
    simp only [Option.bind_eq_some, Option.some.injEq] at h
    obtain ⟨sid, hsid, src, hsrc, tgt, htgt, nm, hnm, stype, hstype, hfe⟩ := h
    subst hfe
    simp only [hstype, Option.some.injEq]
    exact pyEq_str_iff stype "core"

/-- C10 witness: the load-direction equivalence applied to a record
whose `stream_type` is `"energy"`, which loads as not animated. -/
theorem c10_stream_type_core_other_witness :
    edgeOfRecord c10rec = some c10fe ∧
    (c10fe.animated = true
      ↔ c10rec.getD "stream_type" (.str "") = some (.str "core")) :=
  ⟨rfl, c10_stream_type_core_other.2 c10rec c10fe rfl⟩
/-- Inserting a fresh key into a Python dict appends the entry. -/
theorem insertKV_append (acc : List (String × Json)) (k : String) (v : Json)
    (h : ∀ p ∈ acc, p.1 ≠ k) : insertKV acc k v = acc ++ [(k, v)] := by
  induction acc with
  | nil => rfl
  | cons p rest ih =>
    obtain ⟨k1, v1⟩ := p
    have hne : k1 ≠ k := h (k1, v1) (List.mem_cons_self _ _)
    simp only [insertKV, if_neg hne, List.cons_append]
    rw [ih fun q hq => h q (List.mem_cons_of_mem _ hq)]

/-- Re-parsing a dumped raw dict whose dumped keys are defined and
pairwise distinct keeps the entries in order. -/
theorem reparse_values (fs : List (Json × Json)) (ks : List String)
    (hk : mapO (fun p => p.1.dumpKey) fs = some ks)
    (hnd : ks.Nodup)
    (acc : List (String × Json))
    (hdisj : ∀ k ∈ ks, ∀ p ∈ acc, p.1 ≠ k) :
    ∃ gs, reparseDict acc fs = some gs ∧
      gs.map Prod.snd = acc.map Prod.snd ++ fs.map Prod.snd ∧
      gs.map Prod.fst = acc.map Prod.fst ++ ks := by
  induction fs generalizing ks acc with
  | nil =>
    simp only [mapO, Option.some.injEq] at hk
    subst hk
    exact ⟨acc, rfl, by simp, by simp⟩
  | cons q rest ih =>
    obtain ⟨k0, v0⟩ := q
    simp only [mapO, Option.bind_eq_some, Option.some.injEq] at hk
    obtain ⟨k, hk1, ks2, hks2, hcons⟩ := hk
    subst hcons
    have hnd2 : ks2.Nodup := (List.nodup_cons.mp hnd).2
    have hknot : k ∉ ks2 := (List.nodup_cons.mp hnd).1
    have hins : insertKV acc k v0 = acc ++ [(k, v0)] :=
      insertKV_append acc k v0
        (fun p hp => hdisj k (List.mem_cons_self _ _) p hp)
    have hdisj2 : ∀ k2 ∈ ks2, ∀ p ∈ acc ++ [(k, v0)], p.1 ≠ k2 := by
      intro k2 hk2 p hp
      rcases List.mem_append.mp hp with hpa | hpk
      · exact hdisj k2 (List.mem_cons_of_mem _ hk2) p hpa
      · rcases List.mem_singleton.mp hpk with rfl
        intro heq
        apply hknot
        have : k = k2 := heq
        rw [this]
        exact hk2
    obtain ⟨gs, hgs, hsnd, hfst⟩ := ih ks2 hks2 hnd2 (acc ++ [(k, v0)]) hdisj2
    refine ⟨gs, ?_, ?_, ?_⟩
    · simp only [reparseDict, hk1, Option.some_bind, hins]
      exact hgs
    · rw [hsnd]
      simp
    · rw [hfst]
      simp

/-- Inserting a key that is Python-equal to no existing key appends the
entry to a raw dict. -/
theorem pyDictInsert_append (acc : List (Json × Json)) (k v : Json)
    (h : ∀ p ∈ acc, pyEq p.1 k = false) :
    pyDictInsert acc k v = acc ++ [(k, v)] := by
  induction acc with
  | nil => rfl
  | cons p rest ih =>
    obtain ⟨k1, v1⟩ := p
    have hne : ¬(pyEq k1 k = true) := by
      simp [h (k1, v1) (List.mem_cons_self _ _)]
    simp only [pyDictInsert, if_neg hne, List.cons_append]
    rw [ih fun q hq => h q (List.mem_cons_of_mem _ hq)]

/-- With scalar ids that are pairwise distinct under Python `==`, the
raw dict-building loop succeeds and keeps one entry per item in item
order. -/
theorem buildDictRaw_append {α : Type} (idOf : α → Json) (recOf : α → Json)
    (items : List α)
    (hsc : ∀ a ∈ items, (idOf a).isScalar = true)
    (hpw : items.Pairwise fun a b => pyEq (idOf a) (idOf b) = false)
    (acc : List (Json × Json))
    (hdisj : ∀ a ∈ items, ∀ p ∈ acc, pyEq p.1 (idOf a) = false) :
    buildDictRaw idOf recOf acc items
      = some (acc ++ items.map fun a => (idOf a, recOf a)) := by
  induction items generalizing acc with
  | nil => simp [buildDictRaw]
  | cons a rest ih =>
    have hsa : ((idOf a).isScalar = true) := hsc a (List.mem_cons_self _ _)
    obtain ⟨hpw1, hpw2⟩ := List.pairwise_cons.mp hpw
    have hins : pyDictInsert acc (idOf a) (recOf a)
        = acc ++ [(idOf a, recOf a)] :=
      pyDictInsert_append acc _ _
        (fun p hp => hdisj a (List.mem_cons_self _ _) p hp)
    have hdisj2 : ∀ b ∈ rest, ∀ p ∈ acc ++ [(idOf a, recOf a)],
        pyEq p.1 (idOf b) = false := by
      intro b hb p hp
      rcases List.mem_append.mp hp with hpa | hpk
      · exact hdisj b (List.mem_cons_of_mem _ hb) p hpa
      · rcases List.mem_singleton.mp hpk with rfl
        exact hpw1 b hb
    simp only [buildDictRaw, hsa, if_true]
    rw [hins]
    rw [ih (fun x hx => hsc x (List.mem_cons_of_mem _ hx)) hpw2 _ hdisj2]
    simp

/-- A successful `mapO` means the function succeeded on every
element. -/
theorem mapO_isSome {α β : Type} (f : α → Option β) (l : List α)
    (ys : List β) (h : mapO f l = some ys) :
    ∀ a ∈ l, (f a).isSome = true := by
  induction l generalizing ys with
  | nil =>
    intro a ha
    cases ha
  | cons x rest ih =>
    simp only [mapO, Option.bind_eq_some, Option.some.injEq] at h
    obtain ⟨b, hb, bs, hbs, hcons⟩ := h
    intro a ha
    rcases List.mem_cons.mp ha with rfl | hha
    · simp [hb]
    · exact ih bs hbs a hha

/-- Only hashable scalars have a dump key. -/
theorem dumpKey_scalar (j : Json) (h : j.dumpKey.isSome = true) :
    j.isScalar = true := by
  cases j <;> simp_all [Json.dumpKey, Json.isScalar]

/-- Dumping the keys of an id-keyed record list just dumps the ids. -/
theorem mapO_fst_pair {α : Type} (idOf recOf : α → Json)
    (items : List α) :
    mapO (fun p => p.1.dumpKey) (items.map fun a => (idOf a, recOf a))
      = mapO (fun a => (idOf a).dumpKey) items := by
  induction items with
  | nil => rfl
  | cons a rest ih => simp only [List.map_cons, mapO, ih]

/-- With ids that are pairwise distinct under Python `==` (so no raw
dict collision, e.g. not `1` versus `True`) and whose dumped keys are
defined and pairwise distinct (so no textual collision, e.g. not `1`
versus `"1"`), the whole save-side dict pipeline succeeds and keeps the
records in item order. -/
theorem buildDict_values {α : Type} (idOf recOf : α → Json)
    (items : List α) (ks : List String)
    (hk : mapO (fun a => (idOf a).dumpKey) items = some ks)
    (hnd : ks.Nodup)
    (hpw : items.Pairwise fun a b => pyEq (idOf a) (idOf b) = false) :
    ∃ fs, buildDict idOf recOf items = some fs ∧
      fs.map Prod.snd = items.map recOf ∧
      fs.map Prod.fst = ks := by
  have hsc : ∀ a ∈ items, (idOf a).isScalar = true := fun a ha =>
    dumpKey_scalar _ (mapO_isSome _ _ _ hk a ha)
  have hraw := buildDictRaw_append idOf recOf items hsc hpw []
    (by intro a ha p hp; cases hp)
  have hk2 : mapO (fun p => p.1.dumpKey)
      (items.map fun a => (idOf a, recOf a)) = some ks := by
    rw [mapO_fst_pair]
    exact hk
  obtain ⟨gs, hgs, hsnd, hfst⟩ :=
    reparse_values (items.map fun a => (idOf a, recOf a)) ks hk2 hnd []
      (by intro k hkk p hp; cases hp)
  refine ⟨gs, ?_, ?_, ?_⟩
  · unfold buildDict
    rw [hraw]
    simp only [List.nil_append, Option.some_bind]
    exact hgs
  · rw [hsnd]
    simp
  · rw [hfst]
    simp

/-- A serialized node record reads back its id. -/
theorem nodeRecord_id (n : FlowNode) :
    (nodeRecord n).getD "unit_operation_id" (.str "") = some n.id := by
  simp [nodeRecord, Json.getD, lookupKey]

/-- Collecting ids over serialized node records recovers the node
ids, provided they are truthy and hashable. -/
theorem collect_nodeRecords (ns : List FlowNode)
    (h1 : ∀ n ∈ ns, n.id.truthy = true)
    (h2 : ∀ n ∈ ns, n.id.isScalar = true) :
    collectNodeIds (ns.map nodeRecord) = some (ns.map fun n => n.id) := by
  induction ns with
  | nil => rfl
  | cons n rest ih =>
    have hh1 := h1 n (List.mem_cons_self _ _)
    have hh2 := h2 n (List.mem_cons_self _ _)
    have hrest := ih (fun x hx => h1 x (List.mem_cons_of_mem _ hx))
      (fun x hx => h2 x (List.mem_cons_of_mem _ hx))
    simp only [List.map_cons, collectNodeIds, nodeRecord_id, Option.some_bind,
      hrest, hh1, hh2, if_true]

/-- `anyFieldEq` succeeds when every record has the field. -/
theorem anyFieldEq_total (l : List Json) (f : String) (v : Json)
    (h : ∀ e ∈ l, (Json.get e f).isSome) :
    ∃ b, anyFieldEq l f v = some b := by
  induction l with
  | nil => exact ⟨false, rfl⟩
  | cons e rest ih =>
    obtain ⟨w, hw⟩ := Option.isSome_iff_exists.mp (h e (List.mem_cons_self _ _))
    by_cases hp : pyEq w v = true
    · exact ⟨true, by simp [anyFieldEq, hw, hp]⟩
    · obtain ⟨b, hb⟩ := ih fun x hx => h x (List.mem_cons_of_mem _ hx)
      exact ⟨b, by simp [anyFieldEq, hw, hp, hb]⟩

/-- `nodeTypeOf` succeeds on records that all carry both endpoint
fields. -/
theorem nodeTypeOf_total (ev : List Json) (v : Json)
    (hs : ∀ e ∈ ev, (Json.get e "source").isSome)
    (ht : ∀ e ∈ ev, (Json.get e "target").isSome) :
    ∃ t, nodeTypeOf ev v = some t := by
  obtain ⟨b1, hb1⟩ := anyFieldEq_total ev "target" v ht
  obtain ⟨b2, hb2⟩ := anyFieldEq_total ev "source" v hs
  refine ⟨if !b2 then "output" else if !b1 then "input" else "default", ?_⟩
  simp only [nodeTypeOf, hb1, hb2, Option.some_bind]

/-- Serialized edge records carry both endpoint fields. -/
theorem edgeRecord_has (e : FlowEdge) :
    ((edgeRecord e).get "source").isSome = true ∧
    ((edgeRecord e).get "target").isSome = true := by
  constructor <;> simp [edgeRecord, Json.get, lookupKey]

/-- Re-deserializing serialized node records succeeds and preserves
every round-trip-compared field (only the derived `node_type` is
recomputed). -/
theorem buildNodes_records (ns : List FlowNode) (ev : List Json)
    (htr : ∀ n ∈ ns, n.id.truthy = true)
    (hpos : ∀ n ∈ ns, n.posX = 0 ∧ n.posY = 0)
    (hs : ∀ e ∈ ev, (Json.get e "source").isSome)
    (ht : ∀ e ∈ ev, (Json.get e "target").isSome) :
    ∃ ns2, buildNodes (ns.map nodeRecord) ev = some ns2 ∧
      ns2.map FlowNode.core = ns.map FlowNode.core := by
  induction ns with
  | nil => exact ⟨[], rfl, rfl⟩
  | cons n rest ih =>
    obtain ⟨ns2, hb, hc⟩ := ih (fun x hx => htr x (List.mem_cons_of_mem _ hx))
      (fun x hx => hpos x (List.mem_cons_of_mem _ hx))
    obtain ⟨t, htt⟩ := nodeTypeOf_total ev n.id hs ht
    have hh := htr n (List.mem_cons_self _ _)
    have hp := hpos n (List.mem_cons_self _ _)
    refine ⟨{ id := n.id, posX := 0, posY := 0, content := n.content,
              description := n.description,
              unit_operation_type := n.unit_operation_type,
              order := n.order, input_streams := n.input_streams,
              output_streams := n.output_streams,
              parameters := n.parameters,
              additional_info := n.additional_info,
              node_type := t } :: ns2, ?_, ?_⟩
    · simp only [List.map_cons, buildNodes, nodeRecord_id, Option.some_bind]
      rw [show (nodeRecord n).getD "name" (.str "") = some n.content by
            simp [nodeRecord, Json.getD, lookupKey]]
      simp only [Option.some_bind, hh, if_true, htt]
      rw [show (nodeRecord n).getD "description" (.str "") = some n.description by
            simp [nodeRecord, Json.getD, lookupKey]]
      rw [show (nodeRecord n).getD "unit_operation_type" (.str "")
            = some n.unit_operation_type by
            simp [nodeRecord, Json.getD, lookupKey]]
      rw [show (nodeRecord n).getD "order" .null = some n.order by
            simp [nodeRecord, Json.getD, lookupKey]]
      rw [show (nodeRecord n).getD "input_streams" (.arr [])
            = some n.input_streams by
            simp [nodeRecord, Json.getD, lookupKey]]
      rw [show (nodeRecord n).getD "output_streams" (.arr [])
            = some n.output_streams by
            simp [nodeRecord, Json.getD, lookupKey]]
      rw [show (nodeRecord n).getD "parameters" (.obj [])
            = some n.parameters by
            simp [nodeRecord, Json.getD, lookupKey]]
      rw [show (nodeRecord n).getD "additional_info" (.str "")
            = some n.additional_info by
            simp [nodeRecord, Json.getD, lookupKey]]
      simp only [Option.some_bind, hb]
    · simp only [List.map_cons, FlowNode.core]
      rw [hc]
      simp [hp.1, hp.2]

/-- Edge extraction is a left inverse of edge serialization; in
particular the animated flag survives through `stream_type`. -/
theorem edgeOfRecord_edgeRecord (e : FlowEdge) :
    edgeOfRecord (edgeRecord e) = some e := by
  obtain ⟨i, s, t, l, a⟩ := e
  cases a <;>
    simp [edgeOfRecord, edgeRecord, Json.getD, lookupKey, pyEq]

/-- Re-deserializing serialized edge records whose endpoints are all
known keeps every edge and warns about none. -/
theorem buildEdges_records (es : List FlowEdge) (ids : List Json)
    (h : ∀ e ∈ es, jmem ids e.source = true ∧ jmem ids e.target = true) :
    buildEdges (es.map edgeRecord) ids = some (es, []) := by
  induction es with
  | nil => rfl
  | cons e rest ih =>
    have hh := h e (List.mem_cons_self _ _)
    have hrest := ih fun x hx => h x (List.mem_cons_of_mem _ hx)
    simp only [List.map_cons, buildEdges, edgeOfRecord_edgeRecord,
      Option.some_bind, hrest, hh.1, hh.2]
    simp

/-- Every kept edge has both endpoints among the known node ids. -/
theorem buildEdges_mem (vals ids : List Json) (es : List FlowEdge)
    (ws : List Diag) (h : buildEdges vals ids = some (es, ws)) :
    ∀ e ∈ es, jmem ids e.source = true ∧ jmem ids e.target = true := by
  induction vals generalizing es ws with
  | nil =>
    simp only [buildEdges, Option.some.injEq, Prod.mk.injEq] at h
    obtain ⟨h1, h2⟩ := h
    subst h1
    intro e he
    cases he
  | cons v rest ih =>
    simp only [buildEdges, Option.bind_eq_some] at h
    obtain ⟨fe, hfe, h⟩ := h
    obtain ⟨ew, hew, h⟩ := h
    split at h
    · simp only [Option.some.injEq, Prod.mk.injEq] at h
      obtain ⟨h1, h2⟩ := h
      subst h1
      exact ih ew.1 ew.2 hew
    · simp only [Option.some.injEq, Prod.mk.injEq] at h
      obtain ⟨h1, h2⟩ := h
      subst h1
      rename_i hcond
      intro e he
      rcases List.mem_cons.mp he with hh | hht
      · subst hh
        constructor
        · cases hs : jmem ids e.source
          · exact absurd (by simp [hs]) hcond
          · rfl
        · cases hs : jmem ids e.target
          · exact absurd (by simp [hs]) hcond
          · rfl
      · exact ih ew.1 ew.2 hew e hht

/-- C1 amended: for every graph obtained by deserializing a file, as
long as its node ids and its edge ids are pairwise distinct as Python
values (no `1` versus `True` raw dict collision) and also serialize to
pairwise distinct dict keys (no `1` versus `"1"` textual collision; in
particular whenever ids are distinct strings, which duplicate-id files
violate — see the counterexample), serializing and re-deserializing
succeeds and yields the same node list on every claim-compared field
(id, name, description, type, order, stream lists, parameters,
additional info, position), the same edge list (id, source, target,
label, animated/stream type), and no diagnostics. -/
theorem c1_roundtrip_amended (dag : Json) (r : LoadResult)
    (h : deserialize (some dag) = some r)
    (nks : List String)
    (hnk : mapO (fun n => n.id.dumpKey) r.nodes = some nks)
    (hnnd : nks.Nodup)
    (hnpw : r.nodes.Pairwise fun a b => pyEq a.id b.id = false)
    (eks : List String)
    (hek : mapO (fun e => e.id.dumpKey) r.edges = some eks)
    (hend : eks.Nodup)
    (hepw : r.edges.Pairwise fun a b => pyEq a.id b.id = false) :
    ∃ j r2, serializeState { nodes := r.nodes, edges := r.edges } = some j ∧
      deserialize (some j) = some r2 ∧
      r2.nodes.map FlowNode.core = r.nodes.map FlowNode.core ∧
      r2.edges = r.edges ∧ r2.warnings = [] := by
  obtain ⟨nv, ev, ids, h1, h2, h3, h4, h5⟩ := deserialize_parts dag r h
  have hshape := buildNodes_shape nv ev r.nodes h4
  have hidseq := buildNodes_ids nv ev ids r.nodes h3 h4
  have hscal0 := collectNodeIds_scalar nv ids h3
  have hmem0 := buildEdges_mem ev ids r.edges r.warnings h5
  rw [hidseq] at hscal0 hmem0
  have htr : ∀ n ∈ r.nodes, n.id.truthy = true := fun n hn => (hshape n hn).1
  have hpos : ∀ n ∈ r.nodes, n.posX = 0 ∧ n.posY = 0 :=
    fun n hn => ⟨(hshape n hn).2.1, (hshape n hn).2.2⟩
  have hscal : ∀ n ∈ r.nodes, n.id.isScalar = true := by
    intro n hn
    exact hscal0 n.id (List.mem_map_of_mem _ hn)
  obtain ⟨uo, huo, huosnd, huofst⟩ :=
    buildDict_values (fun n => n.id) nodeRecord r.nodes nks hnk hnnd hnpw
  obtain ⟨st, hst, hstsnd, hstfst⟩ :=
    buildDict_values (fun e => e.id) edgeRecord r.edges eks hek hend hepw
  have hser : serializeState { nodes := r.nodes, edges := r.edges }
      = some (.obj [("unit_operations", .obj uo), ("streams", .obj st)]) := by
    unfold serializeState
    simp only [huo, hst, Option.some_bind]
  have hcoll : collectNodeIds (r.nodes.map nodeRecord)
      = some (r.nodes.map fun n => n.id) :=
    collect_nodeRecords r.nodes htr hscal
  have hsrc : ∀ e ∈ r.edges.map edgeRecord, (Json.get e "source").isSome := by
    intro e he
    obtain ⟨x, hx, rfl⟩ := List.mem_map.mp he
    exact (edgeRecord_has x).1
  have htgt : ∀ e ∈ r.edges.map edgeRecord, (Json.get e "target").isSome := by
    intro e he
    obtain ⟨x, hx, rfl⟩ := List.mem_map.mp he
    exact (edgeRecord_has x).2
  obtain ⟨ns2, hbn, hcore⟩ :=
    buildNodes_records r.nodes (r.edges.map edgeRecord) htr hpos hsrc htgt
  have hbe : buildEdges (r.edges.map edgeRecord) (r.nodes.map fun n => n.id)
      = some (r.edges, []) :=
    buildEdges_records r.edges _ hmem0
  have e1 : (Json.obj [("unit_operations", .obj uo),
      ("streams", .obj st)]).getD "unit_operations" (.obj [])
      = some (.obj uo) := by
    simp [Json.getD, lookupKey]
  have e2 : (Json.obj [("unit_operations", .obj uo),
      ("streams", .obj st)]).getD "streams" (.obj [])
      = some (.obj st) := by
    simp [Json.getD, lookupKey]
  have v1 : Json.valuesOf (.obj uo) = some (r.nodes.map nodeRecord) := by
    simp only [Json.valuesOf]
    rw [huosnd]
  have v2 : Json.valuesOf (.obj st) = some (r.edges.map edgeRecord) := by
    simp only [Json.valuesOf]
    rw [hstsnd]
  have hstep : deserialize (some (.obj [("unit_operations", .obj uo),
      ("streams", .obj st)]))
      = buildLoad (.obj [("unit_operations", .obj uo),
          ("streams", .obj st)]) := rfl
  have hdes : deserialize (some (.obj [("unit_operations", .obj uo),
      ("streams", .obj st)]))
      = some { nodes := ns2, edges := r.edges, warnings := [] } := by
    rw [hstep]
    unfold buildLoad
    rw [e1]
    simp only [Option.some_bind]
    rw [e2]
    simp only [Option.some_bind]
    rw [v1]
    simp only [Option.some_bind]
    rw [v2]
    simp only [Option.some_bind]
    rw [hcoll]
    simp only [Option.some_bind]
    rw [hbn]
    simp only [Option.some_bind]
    rw [hbe]
    simp only [Option.some_bind]
  exact ⟨_, _, hser, hdes, hcore, rfl, rfl⟩

/-- C1 counterexample: the duplicate-id file deserializes to a graph
with two nodes (named "1" and "2", both with id "X"), but serializing
that graph and deserializing the result yields a graph with a single
node — the node set is not preserved, so the round trip fails for this
deserialized graph. -/
theorem c1_counterexample :
    ((deserialize (some c1file)).map fun r =>
        r.nodes.map fun n => (n.id, n.content))
      = some [(.str "X", .str "1"), (.str "X", .str "2")] ∧
    ((((deserialize (some c1file)).bind fun r =>
          serializeState { nodes := r.nodes, edges := r.edges }).bind
        fun j => deserialize (some j)).map fun r =>
        r.nodes.map fun n => (n.id, n.content))
      = some [(.str "X", .str "2")] :=
  ⟨rfl, rfl⟩

/-- C1 witness: the amended round-trip theorem applied to a concrete
two-node one-edge load with distinct ids. -/
theorem c1_roundtrip_amended_witness :
    deserialize (some c1wfile) = some c1wres ∧
    mapO (fun n => n.id.dumpKey) c1wres.nodes = some ["A", "B"] ∧
    (["A", "B"] : List String).Nodup ∧
    (c1wres.nodes.Pairwise fun a b => pyEq a.id b.id = false) ∧
    mapO (fun e => e.id.dumpKey) c1wres.edges = some ["e1"] ∧
    (["e1"] : List String).Nodup ∧
    (c1wres.edges.Pairwise fun a b => pyEq a.id b.id = false) ∧
    (∃ j r2,
      serializeState { nodes := c1wres.nodes, edges := c1wres.edges }
        = some j ∧
      deserialize (some j) = some r2 ∧
      r2.nodes.map FlowNode.core = c1wres.nodes.map FlowNode.core ∧
      r2.edges = c1wres.edges ∧ r2.warnings = []) :=
  ⟨rfl, rfl, by decide, by decide, rfl, by decide, by decide,
   c1_roundtrip_amended c1wfile c1wres rfl ["A", "B"] rfl (by decide)
     (by decide) ["e1"] rfl (by decide) (by decide)⟩
